import Mathlib

/-!
Shallow embedding of `uaclient/cli.py` from ubuntu-advantage-client:
the attach / detach / status / enable / disable command actions, together
with the credential cache they manipulate.  External collaborator modules
(`uaclient.config`, `uaclient.contract`, `uaclient.sso`,
`uaclient.entitlements`, `uaclient.status`, `uaclient.util`) are absent
from the sources; where an action's behaviour depends on them they are
modelled from the specification as oracles, each marked
`Modelled from the spec:` in its doc comment.
-/

namespace UA

/-- Contract metadata nested inside a machine-token response:
`contractInfo` with fields `id`, `name`, `effectiveTo` and the keys of
`resourceEntitlements`. -/
structure ContractInfo where
  id : String
  name : String
  effectiveTo : String
  resourceEntitlements : List String
  deriving DecidableEq, Repr

/-- The machine-token response: `machineTokenInfo.contractInfo`. -/
structure MachineTokenResponse where
  contractInfo : ContractInfo
  deriving DecidableEq, Repr

/-- A value stored in the on-disk credential cache: either an opaque string
blob (tokens) or the deserialized machine-token response. -/
inductive CacheVal where
  | str (s : String)
  | mtok (t : MachineTokenResponse)
  deriving DecidableEq, Repr

/-- One entry of the `contracts` list in an account-contracts response. -/
structure ContractEntry where
  contractInfo : ContractInfo
  deriving DecidableEq, Repr

/-- An account record as cached by config; only `name` is consumed by cli.py. -/
structure Account where
  name : String
  deriving DecidableEq, Repr

/-- The on-disk credential cache: an association list keyed by cache name. -/
def Cache := List (String × CacheVal)

instance : DecidableEq Cache := by
  unfold Cache
  infer_instance

/-- Look a key up in the cache. -/
def Cache.find : Cache → String → Option CacheVal
  | [], _ => none
  | (k, v) :: r, key => if k = key then some v else Cache.find r key

/-- Modelled from the spec: CredentialStore `Write(key, blob)` — replace any
existing entry for the key (atomic per key). -/
def write_cache (c : Cache) (key : String) (v : CacheVal) : Cache :=
  (key, v) :: (List.filter (fun p => p.1 ≠ key) c)

/-- Modelled from the spec: CredentialStore `Delete(key)`. -/
def delete_cache (c : Cache) (key : String) : Cache :=
  List.filter (fun p => p.1 ≠ key) c

/-- The process configuration visible to cli.py: the credential cache plus
the cached account list.  `accounts` is modelled from the spec: the config
module (absent from src/) exposes the cached account records. -/
structure Config where
  cache : Cache
  accounts : List Account

/-- Modelled from the spec: a machine is attached iff the `machine-token`
key exists in the credential store. -/
def Config.is_attached (cfg : Config) : Bool :=
  (Cache.find cfg.cache "machine-token").isSome

/-- Modelled from the spec: `cfg.machine_token` reads the deserialized
machine-token response from the `machine-token` cache entry. -/
def Config.machine_token (cfg : Config) : Option MachineTokenResponse :=
  match Cache.find cfg.cache "machine-token" with
  | some (CacheVal.mtok t) => some t
  | _ => none

/-- Errors raised by the network-facing collaborator modules:
`util.UrlError` and `sso.SSOAuthError`. -/
inductive AttachErr where
  | url (u : String)
  | ssoAuth (msg : String)
  deriving DecidableEq, Repr

/-- Network calls issued by the actions, with the credential each carried. -/
inductive NetCall where
  | requestRootMacaroon
  | ssoLoginPrompt (caveatId : String)
  | requestAccounts (tok : String)
  | requestAccountContracts (tok : String)
  | requestAddContractToken (tok : String) (contractId : String)
  | requestContractMachineAttach (contractToken : String)
  | requestResourceMachineAccess (entName : String)
  deriving DecidableEq, Repr

/-- Observable events of one command invocation, in program order. -/
inductive Ev where
  | print (msg : String)
  | logError (msg : String)
  | net (c : NetCall)
  | writeCache (key : String) (v : CacheVal)
  | deleteCache (key : String)
  | writeFile (path : String) (content : String)
  | entCanDisable (name : String)
  | entDisable (name : String)
  | entEnable (name : String)
  deriving DecidableEq, Repr

/-- How a command invocation terminates: a returned exit code, or an
uncaught Python exception propagating out of the action. -/
inductive ExitR where
  | code (n : Nat)
  | crash
  deriving DecidableEq, Repr

/-- Modelled from the spec: the responses of the identity and subscription
services (modules `uaclient.sso` and `uaclient.contract`, absent from
src/), one field per remote operation of the §6 interface contracts. -/
structure World where
  rootMacaroon : Except AttachErr String
  caveatId : String → String
  ssoDischarge : String → Except AttachErr String
  bindResult : String → String → String
  accountsResp : String → Except AttachErr Unit
  accountContracts : String → Except AttachErr (List ContractEntry)
  addContractToken : String → String → Except AttachErr String
  machineAttach : String → Except AttachErr MachineTokenResponse
  resourceAccess : Option MachineTokenResponse → String → Except AttachErr Unit

/-- Modelled from the spec: the fixed entitlement registry
(`entitlements.ENTITLEMENT_CLASSES`, absent from src/), in registry order. -/
def ENTITLEMENT_CLASSES : List String :=
  ["esm", "fips", "fips-updates", "livepatch"]

/-- Modelled from the spec: per-entitlement capability answers and status
lines (the entitlement classes and `uaclient.status` module are absent
from src/). -/
structure EntOracle where
  canDisable : String → Bool
  disableOk : String → Bool
  enableOk : String → Bool
  statusLine : String → String
  motdSummary : Bool → String

/-- Modelled from the spec: `ua_status.MESSAGE_NONROOT_USER`, the fixed
message printed when an administrative command runs without root. -/
def MESSAGE_NONROOT_USER : String :=
  "This command must be run as root (try using sudo)"

/-- Modelled from the spec: `ua_status.MESSAGE_UNATTACHED`, the fixed
message status prints on an unattached machine. -/
def MESSAGE_UNATTACHED : String :=
  "This machine is not attached to a UA subscription. See https://ubuntu.com/advantage"

/-- The not-attached guidance text printed by `action_detach` (inline,
dedented literal in cli.py). -/
def MESSAGE_DETACH_UNATTACHED : String :=
  "This machine is not attached to a UA Subscription, sign up here:\n      https://ubuntu.com/advantage\n"

/-- The failure message printed when no authenticated user token could be
obtained during attach. -/
def MESSAGE_ATTACH_NO_TOKEN : String :=
  "Could not attach machine. Unable to obtain authenticated user token"

/-- Modelled from the spec: `ua_status.STATUS_COLOR.get(STANDARD, STANDARD)`
falls back to the `STANDARD` support-level string (status module absent
from src/). -/
def statusSupportLevel : String := "standard"

/-- Modelled from the spec: motd cache file paths from the config module. -/
def MOTD_CACHE_FILE : String := "/var/lib/ubuntu-advantage/motd-ubuntu-advantage-status.cache"

/-- Modelled from the spec: motd updates-available cache file path. -/
def MOTD_UPDATES_AVAILABLE_CACHE_FILE : String := "/var/lib/ubuntu-advantage/motd-updates-available.cache"

/-- `str(e)` of a caught exception as logged by cli.py. -/
def errStr : AttachErr → String
  | AttachErr.url u => u
  | AttachErr.ssoAuth m => m

/-- Split a character list on a separator character. -/
def splitOnChar (sep : Char) : List Char → List (List Char)
  | [] => [[]]
  | ch :: r =>
    let rest := splitOnChar sep r
    if ch = sep then [] :: rest
    else
      match rest with
      | [] => [[ch]]
      | g :: gs => (ch :: g) :: gs

/-- Numeric value of a nonempty all-digit character list. -/
def digitsVal (l : List Char) : Option Nat :=
  if l.isEmpty then none
  else if l.all Char.isDigit then
    some (l.foldl (fun a c => a * 10 + (c.toNat - 48)) 0)
  else none

/-- Result of a date parse in the fixed contract-expiry format: the
calendar date that `datetime.date()` extracts. -/
structure PyDate where
  y : Nat
  m : Nat
  d : Nat
  deriving DecidableEq, Repr

/-- Validation of the time-of-day part `HH:MM:SS.ffffffZ` of the fixed
expiry format. -/
def timePartOk (t : List Char) : Bool :=
  match t.getLast? with
  | some z =>
    if z = 'Z' then
      match splitOnChar ':' t.dropLast with
      | [hs, mis, rest] =>
        (match splitOnChar '.' rest with
         | [ss, fs] =>
           (match digitsVal hs, digitsVal mis, digitsVal ss, digitsVal fs with
            | some h, some mi, some s2, some _ =>
              hs.length ≤ 2 && mis.length ≤ 2 && ss.length ≤ 2 &&
                fs.length ≤ 6 && h ≤ 23 && mi ≤ 59 && s2 ≤ 61
            | _, _, _, _ => false)
         | _ => false)
      | _ => false
    else false
  | none => false

/-- `datetime.strptime(s, "%Y-%m-%dT%H:%M:%S.%fZ").date()`: parse the
fixed UTC contract-expiry format and keep the calendar date. -/
def strptimeExpiryDate (s : String) : Option PyDate :=
  match splitOnChar 'T' s.data with
  | [dpart, tpart] =>
    (match splitOnChar '-' dpart with
     | [ys, ms, ds] =>
       if timePartOk tpart then
         match digitsVal ys, digitsVal ms, digitsVal ds with
         | some y, some m, some d =>
           if ys.length ≤ 4 && ms.length ≤ 2 && ds.length ≤ 2 &&
              1 ≤ y && 1 ≤ m && m ≤ 12 && 1 ≤ d && d ≤ 31 then
             some { y := y, m := m, d := d }
           else none
         | _, _, _ => none
       else none
     | _ => none)
  | _ => none

/-- Decimal digit characters of a natural number, most significant first,
accumulated with explicit fuel so the definition reduces in the kernel. -/
def natDigitsAux : Nat → Nat → List Char → List Char
  | 0, _, acc => acc
  | fuel + 1, n, acc =>
    if n < 10 then Char.ofNat (48 + n) :: acc
    else natDigitsAux fuel (n / 10) (Char.ofNat (48 + n % 10) :: acc)

/-- Python `str(n)` for a natural number. -/
def natToString (n : Nat) : String :=
  String.mk (natDigitsAux (n + 1) n [])

/-- Zero-pad a number to a given width, as Python date formatting does. -/
def padNat (w n : Nat) : String :=
  let s := natToString n
  String.mk (List.replicate (w - s.length) (Char.ofNat 48)) ++ s

/-- `str(date)`: ISO `YYYY-MM-DD` rendering of a date. -/
def PyDate.fmt (d : PyDate) : String :=
  padNat 4 d.y ++ "-" ++ padNat 2 d.m ++ "-" ++ padNat 2 d.d

/-- The `STATUS_HEADER_TMPL` of cli.py, applied to its four fields. -/
def statusHeader (account subscription contractExpiry supportLevel : String) : String :=
  "Account: " ++ account ++ "\nSubscription: " ++ subscription ++
  "\nValid until: " ++ contractExpiry ++ "\nTechnical support: " ++
  supportLevel ++ "\n"

/-- Network calls of an event trace, in order. -/
def netCallsOf : List Ev → List NetCall
  | [] => []
  | Ev.net c :: r => c :: netCallsOf r
  | _ :: r => netCallsOf r

/-- Entitlement names of the resource-access grant calls of a trace. -/
def resourceCallsOf : List Ev → List String
  | [] => []
  | Ev.net (NetCall.requestResourceMachineAccess n) :: r => n :: resourceCallsOf r
  | _ :: r => resourceCallsOf r

/-- Identity-exchange calls: the root-macaroon request and the interactive
SSO login. -/
def isIdentityCall : NetCall → Bool
  | NetCall.requestRootMacaroon => true
  | NetCall.ssoLoginPrompt _ => true
  | _ => false

/-- Calls addressed to the contract service during the post-bind phase. -/
def isContractNet : Ev → Bool
  | Ev.net (NetCall.requestAccounts _) => true
  | Ev.net (NetCall.requestAccountContracts _) => true
  | Ev.net (NetCall.requestAddContractToken _ _) => true
  | Ev.net (NetCall.requestContractMachineAttach _) => true
  | Ev.net (NetCall.requestResourceMachineAccess _) => true
  | _ => false

end UA

namespace UA

/-- Python truthiness of `args.token`: absent or the empty string is falsy. -/
def tokenFalsy : Option String → Bool
  | none => true
  | some s => s = ""

/-- The entitlement teardown loop of `action_detach`: for each registry
entry, call `can_disable(silent=True)` and, when it answers yes,
`disable(silent=True)`. -/
def detachTeardown (es : EntOracle) : List String → List Ev
  | [] => []
  | n :: r =>
    (if es.canDisable n then [Ev.entCanDisable n, Ev.entDisable n]
     else [Ev.entCanDisable n]) ++ detachTeardown es r

/-- `action_detach(args, cfg)`: not-attached guard, root guard, entitlement
teardown, then deletion of the `machine-token` and `oauth` cache keys. -/
def action_detach (uid : Nat) (cfg : Config) (es : EntOracle) :
    ExitR × List Ev × Cache :=
  if ¬ cfg.is_attached then
    (ExitR.code 1, [Ev.print MESSAGE_DETACH_UNATTACHED], cfg.cache)
  else if uid ≠ 0 then
    (ExitR.code 1, [Ev.print MESSAGE_NONROOT_USER], cfg.cache)
  else
    (ExitR.code 0,
     detachTeardown es ENTITLEMENT_CLASSES ++
       [Ev.deleteCache "machine-token", Ev.deleteCache "oauth",
        Ev.print "This machine is now detached"],
     delete_cache (delete_cache cfg.cache "machine-token") "oauth")

/-- Outcome of the identity phase of attach: an early return, or the
`sso_token` value flowing into the bound-credential write. -/
inductive SsoR where
  | abort (r : ExitR)
  | ok (sso : String)
  deriving DecidableEq, Repr

/-- Lines 204-216 of cli.py: when no (truthy) token was supplied, request a
root macaroon, extract its caveat id, run the interactive SSO login and
bind the discharge macaroon to the root macaroon; `util.UrlError` is
caught (logged, exit 1) but `sso.SSOAuthError` is not caught here and
crashes the process.  A supplied token is used directly. -/
def acquireSso (tok : Option String) (w : World) : SsoR × List Ev :=
  if tokenFalsy tok then
    match w.rootMacaroon with
    | Except.error (AttachErr.url u) =>
      (SsoR.abort (ExitR.code 1),
       [Ev.net NetCall.requestRootMacaroon,
        Ev.logError ("Could not reach url \x27" ++ u ++ "\x27 to authenticate.")])
    | Except.error (AttachErr.ssoAuth _) =>
      (SsoR.abort ExitR.crash, [Ev.net NetCall.requestRootMacaroon])
    | Except.ok root =>
      match w.ssoDischarge (w.caveatId root) with
      | Except.error (AttachErr.url u) =>
        (SsoR.abort (ExitR.code 1),
         [Ev.net NetCall.requestRootMacaroon,
          Ev.net (NetCall.ssoLoginPrompt (w.caveatId root)),
          Ev.logError ("Could not reach url \x27" ++ u ++ "\x27 to authenticate.")])
      | Except.error (AttachErr.ssoAuth _) =>
        (SsoR.abort ExitR.crash,
         [Ev.net NetCall.requestRootMacaroon,
          Ev.net (NetCall.ssoLoginPrompt (w.caveatId root))])
      | Except.ok d =>
        (SsoR.ok (w.bindResult d root),
         [Ev.net NetCall.requestRootMacaroon,
          Ev.net (NetCall.ssoLoginPrompt (w.caveatId root))])
  else
    (SsoR.ok (tok.getD ""), [])

/-- Outcome of the contract phase of attach. -/
inductive CtrR where
  | abort (r : ExitR)
  | ok (resp : MachineTokenResponse)
  deriving DecidableEq, Repr

/-- Lines 222-232 of cli.py: the try block requesting accounts, account
contracts, a contract token for the first contract, and the machine
token; `SSOAuthError` and `UrlError` are caught (logged, exit 1), while
an empty contracts list raises an uncaught IndexError. -/
def contractPhase (w : World) (sso : String) : CtrR × List Ev :=
  match w.accountsResp sso with
  | Except.error e =>
    (CtrR.abort (ExitR.code 1),
     [Ev.net (NetCall.requestAccounts sso), Ev.logError (errStr e)])
  | Except.ok _ =>
    match w.accountContracts sso with
    | Except.error e =>
      (CtrR.abort (ExitR.code 1),
       [Ev.net (NetCall.requestAccounts sso),
        Ev.net (NetCall.requestAccountContracts sso), Ev.logError (errStr e)])
    | Except.ok cs =>
      match cs.head? with
      | none =>
        (CtrR.abort ExitR.crash,
         [Ev.net (NetCall.requestAccounts sso),
          Ev.net (NetCall.requestAccountContracts sso)])
      | some c =>
        match w.addContractToken sso c.contractInfo.id with
        | Except.error e =>
          (CtrR.abort (ExitR.code 1),
           [Ev.net (NetCall.requestAccounts sso),
            Ev.net (NetCall.requestAccountContracts sso),
            Ev.net (NetCall.requestAddContractToken sso c.contractInfo.id),
            Ev.logError (errStr e)])
        | Except.ok ct =>
          match w.machineAttach ct with
          | Except.error e =>
            (CtrR.abort (ExitR.code 1),
             [Ev.net (NetCall.requestAccounts sso),
              Ev.net (NetCall.requestAccountContracts sso),
              Ev.net (NetCall.requestAddContractToken sso c.contractInfo.id),
              Ev.net (NetCall.requestContractMachineAttach ct),
              Ev.logError (errStr e)])
          | Except.ok resp =>
            (CtrR.ok resp,
             [Ev.net (NetCall.requestAccounts sso),
              Ev.net (NetCall.requestAccountContracts sso),
              Ev.net (NetCall.requestAddContractToken sso c.contractInfo.id),
              Ev.net (NetCall.requestContractMachineAttach ct)])

/-- Lines 234-237 of cli.py: the per-entitlement resource-access grant
loop.  No exception handling surrounds it, so a failing request stops
the loop and propagates (result `none`). -/
def grantLoop (w : World) (mt : Option MachineTokenResponse) :
    List String → Option Unit × List Ev
  | [] => (some (), [])
  | n :: rest =>
    match w.resourceAccess mt n with
    | Except.error _ =>
      (none, [Ev.net (NetCall.requestResourceMachineAccess n)])
    | Except.ok _ =>
      let p := grantLoop w mt rest
      (p.1, Ev.net (NetCall.requestResourceMachineAccess n) :: p.2)

/-- Lines 300-319 of cli.py: the status content built for an attached
machine — header from the template (account name, subscription name,
parsed contract expiry date, support level), one line per registry
entitlement, and the closing enable hint.  `none` models an uncaught
exception (failed `strptime` or an empty cached account list). -/
def statusContent (cfg : Config) (es : EntOracle) : Option (List String) :=
  match cfg.machine_token with
  | none => none
  | some mt =>
    match strptimeExpiryDate mt.contractInfo.effectiveTo with
    | none => none
    | some expiry =>
      match cfg.accounts.head? with
      | none => none
      | some account =>
        some (statusHeader account.name mt.contractInfo.name expiry.fmt
                statusSupportLevel ::
              (List.map es.statusLine ENTITLEMENT_CLASSES ++
               ["\nEnable entitlements with \x60ua enable <service>\x60\n"]))

/-- `action_status(args, cfg)`: optional motd-cache writing, the
unattached short-circuit, and the attached status report.  The action
returns `None`, so the process exit code is 0 unless it crashes. -/
def action_status (updateMotd : Bool) (cfg : Config) (es : EntOracle) :
    ExitR × List Ev :=
  let motdEvs :=
    if updateMotd then
      [Ev.writeFile MOTD_UPDATES_AVAILABLE_CACHE_FILE (es.motdSummary true),
       Ev.writeFile MOTD_CACHE_FILE (es.motdSummary false),
       Ev.print (es.motdSummary true), Ev.print (es.motdSummary false)]
    else []
  if ¬ cfg.is_attached then
    (ExitR.code 0, motdEvs ++ [Ev.print MESSAGE_UNATTACHED])
  else
    match statusContent cfg es with
    | none => (ExitR.crash, motdEvs)
    | some content =>
      (ExitR.code 0, motdEvs ++ [Ev.print (String.intercalate "\n" content)])

/-- `action_attach(args, cfg)`: already-attached short-circuit, root
guard, identity phase, bound-credential cache write, contract phase
(the contract client persists the machine token on success, modelled
from the spec), grant loop, success message and final status report. -/
def action_attach (tok : Option String) (uid : Nat) (cfg : Config)
    (w : World) (es : EntOracle) : ExitR × List Ev × Cache :=
  if cfg.is_attached then
    match cfg.accounts.head? with
    | none => (ExitR.crash, [], cfg.cache)
    | some a =>
      (ExitR.code 0,
       [Ev.print ("This machine is already attached to \x27" ++ a.name ++ "\x27.")],
       cfg.cache)
  else if uid ≠ 0 then
    (ExitR.code 1, [Ev.print MESSAGE_NONROOT_USER], cfg.cache)
  else
    match acquireSso tok w with
    | (SsoR.abort r, t1) => (r, t1, cfg.cache)
    | (SsoR.ok sso, t1) =>
      if sso = "" then
        (ExitR.code 1, t1 ++ [Ev.print MESSAGE_ATTACH_NO_TOKEN], cfg.cache)
      else
        let c1 := write_cache cfg.cache "bound-macaroon" (CacheVal.str sso)
        let t2 := t1 ++ [Ev.writeCache "bound-macaroon" (CacheVal.str sso)]
        match contractPhase w sso with
        | (CtrR.abort r, tc) => (r, t2 ++ tc, c1)
        | (CtrR.ok resp, tc) =>
          let c2 := write_cache c1 "machine-token" (CacheVal.mtok resp)
          let t3 := t2 ++ tc ++ [Ev.writeCache "machine-token" (CacheVal.mtok resp)]
          let cfg2 : Config := { cache := c2, accounts := cfg.accounts }
          match grantLoop w cfg2.machine_token resp.contractInfo.resourceEntitlements with
          | (none, tg) => (ExitR.crash, t3 ++ tg, c2)
          | (some _, tg) =>
            let tAtt := [Ev.print ("This machine is now attached to \x27" ++
                           resp.contractInfo.name ++ "\x27.\n")]
            match action_status false cfg2 es with
            | (ExitR.crash, ts) => (ExitR.crash, t3 ++ tg ++ tAtt ++ ts, c2)
            | (ExitR.code _, ts) => (ExitR.code 0, t3 ++ tg ++ tAtt ++ ts, c2)

/-- Modelled from the spec: `entitlement.enable()` of the entitlement
classes (absent from src/) refuses to mutate without root — "No
entitlement mutation (enable/disable) may proceed without root" — by
printing the fixed non-root message and failing; with root, the
concrete enable mechanics are an oracle. -/
def entitlementEnable (es : EntOracle) (uid : Nat) (name : String) :
    Bool × List Ev :=
  if uid ≠ 0 then (false, [Ev.print MESSAGE_NONROOT_USER])
  else (es.enableOk name, [Ev.entEnable name])

/-- Modelled from the spec: `entitlement.disable()` of the entitlement
classes (absent from src/), gated on root like enable. -/
def entitlementDisable (es : EntOracle) (uid : Nat) (name : String) :
    Bool × List Ev :=
  if uid ≠ 0 then (false, [Ev.print MESSAGE_NONROOT_USER])
  else (es.disableOk name, [Ev.entDisable name])

/-- `action_enable(args, cfg)`: construct the named entitlement and
return 0 when its enable succeeds, else 1. -/
def action_enable (name : String) (uid : Nat) (cfg : Config)
    (es : EntOracle) : ExitR × List Ev × Cache :=
  let p := entitlementEnable es uid name
  (ExitR.code (if p.1 then 0 else 1), p.2, cfg.cache)

/-- `action_disable(args, cfg)`: construct the named entitlement and
return 0 when its disable succeeds, else 1. -/
def action_disable (name : String) (uid : Nat) (cfg : Config)
    (es : EntOracle) : ExitR × List Ev × Cache :=
  let p := entitlementDisable es uid name
  (ExitR.code (if p.1 then 0 else 1), p.2, cfg.cache)

end UA

namespace UA

theorem netCallsOf_append (a b : List Ev) :
    netCallsOf (a ++ b) = netCallsOf a ++ netCallsOf b := by
  induction a with
  | nil => rfl
  | cons e r ih =>
    cases e <;> simp [netCallsOf, ih]

theorem resourceCallsOf_append (a b : List Ev) :
    resourceCallsOf (a ++ b) = resourceCallsOf a ++ resourceCallsOf b := by
  induction a with
  | nil => rfl
  | cons e r ih =>
    cases e with
    | net c => cases c <;> simp [resourceCallsOf, ih]
    | _ => simp [resourceCallsOf, ih]

theorem resourceCallsOf_grantMap (l : List String) :
    resourceCallsOf
      (List.map (fun n => Ev.net (NetCall.requestResourceMachineAccess n)) l) = l := by
  induction l with
  | nil => rfl
  | cons n r ih => simp [resourceCallsOf, ih]

theorem find_write_self (c : Cache) (k : String) (v : CacheVal) :
    Cache.find (write_cache c k v) k = some v := by
  simp [write_cache, Cache.find]

theorem find_filter_ne (c : Cache) (k k' : String) (h : k' ≠ k) :
    Cache.find (List.filter (fun p => p.1 ≠ k) c) k' = Cache.find c k' := by
  have hk : ¬ (k = k') := fun hh => h hh.symm
  induction c with
  | nil => rfl
  | cons p r ih =>
    cases p with
    | mk k0 v0 =>
      simp only [decide_not] at ih ⊢
      simp only [List.filter_cons]
      by_cases h0 : k0 = k
      · simp [h0, Cache.find, hk, ih]
      · by_cases h1 : k0 = k'
        · simp [h0, Cache.find, h1, h]
        · simp [h0, Cache.find, h1, ih]

theorem find_write_ne (c : Cache) (k k' : String) (v : CacheVal) (h : k' ≠ k) :
    Cache.find (write_cache c k v) k' = Cache.find c k' := by
  have hkk : ¬ (k = k') := fun hh => h hh.symm
  rw [write_cache]
  rw [show Cache.find ((k, v) :: List.filter (fun p => p.1 ≠ k) c) k' =
        if k = k' then some v else Cache.find (List.filter (fun p => p.1 ≠ k) c) k'
      from rfl]
  rw [if_neg hkk]
  exact find_filter_ne c k k' h

theorem find_delete_self (c : Cache) (k : String) :
    Cache.find (delete_cache c k) k = none := by
  induction c with
  | nil => rfl
  | cons p r ih =>
    cases p with
    | mk k0 v0 =>
      by_cases h0 : k0 = k
      · simpa [delete_cache, List.filter_cons, h0] using ih
      · simpa [delete_cache, List.filter_cons, h0, Cache.find] using ih

theorem is_attached_find_none (cfg : Config) (h : cfg.is_attached = false) :
    Cache.find cfg.cache "machine-token" = none := by
  simp [Config.is_attached, Option.isSome] at h
  cases hf : Cache.find cfg.cache "machine-token" with
  | none => rfl
  | some v => rw [hf] at h; simp at h

theorem grantLoop_all_ok (w : World) (mt : Option MachineTokenResponse)
    (ns : List String) (h : ∀ n ∈ ns, w.resourceAccess mt n = Except.ok ()) :
    grantLoop w mt ns =
      (some (),
       List.map (fun n => Ev.net (NetCall.requestResourceMachineAccess n)) ns) := by
  induction ns with
  | nil => rfl
  | cons n r ih =>
    have hn := h n (by simp)
    have hr := ih (fun m hm => h m (by simp [hm]))
    simp [grantLoop, hn, hr]

theorem grantLoop_fails (w : World) (mt : Option MachineTokenResponse)
    (pre post : List String) (bad : String) (e : AttachErr)
    (hok : ∀ n ∈ pre, w.resourceAccess mt n = Except.ok ())
    (hbad : w.resourceAccess mt bad = Except.error e) :
    grantLoop w mt (pre ++ bad :: post) =
      (none,
       List.map (fun n => Ev.net (NetCall.requestResourceMachineAccess n))
         (pre ++ [bad])) := by
  induction pre with
  | nil => simp [grantLoop, hbad]
  | cons n r ih =>
    have hn := hok n (by simp)
    have hr := ih (fun m hm => hok m (by simp [hm]))
    simp [grantLoop, hn, hr]

theorem grantCalls_are_resource (w : World) (mt : Option MachineTokenResponse)
    (ns : List String) :
    ∀ cl ∈ netCallsOf (grantLoop w mt ns).2,
      ∃ n, cl = NetCall.requestResourceMachineAccess n := by
  induction ns with
  | nil => intro cl h; simp [grantLoop, netCallsOf] at h
  | cons n r ih =>
    intro cl h
    cases ha : w.resourceAccess mt n with
    | error e =>
      simp [grantLoop, ha, netCallsOf] at h
      exact ⟨n, h⟩
    | ok u =>
      simp only [grantLoop, ha] at h
      simp [netCallsOf] at h
      rcases h with h | h
      · exact ⟨n, h⟩
      · exact ih cl (by simpa using h)

theorem status_no_net (u : Bool) (cfg : Config) (es : EntOracle) :
    netCallsOf (action_status u cfg es).2 = [] := by
  unfold action_status
  by_cases h : cfg.is_attached
  · simp [h]
    cases hc : statusContent cfg es with
    | none => cases u <;> simp [netCallsOf]
    | some content => cases u <;> simp [netCallsOf, netCallsOf_append]
  · simp [h]
    cases u <;> simp [netCallsOf, netCallsOf_append]

theorem status_no_resource (u : Bool) (cfg : Config) (es : EntOracle) :
    resourceCallsOf (action_status u cfg es).2 = [] := by
  unfold action_status
  by_cases h : cfg.is_attached
  · simp [h]
    cases hc : statusContent cfg es with
    | none => cases u <;> simp [resourceCallsOf]
    | some content => cases u <;> simp [resourceCallsOf, resourceCallsOf_append]
  · simp [h]
    cases u <;> simp [resourceCallsOf, resourceCallsOf_append]

theorem contract_no_identity (w : World) (sso : String) :
    (netCallsOf (contractPhase w sso).2).all (fun c => ! (isIdentityCall c)) = true := by
  unfold contractPhase
  repeat' split
  all_goals rfl

theorem contract_no_resource (w : World) (sso : String) :
    resourceCallsOf (contractPhase w sso).2 = [] := by
  unfold contractPhase
  repeat' split
  all_goals rfl

end UA

namespace UA

/-- A sample contract with two resource entitlements and the spec's
example expiry timestamp. -/
def sampleCI : ContractInfo :=
  { id := "cid-1", name := "contractA",
    effectiveTo := "2030-01-15T00:00:00.000000Z",
    resourceEntitlements := ["esm", "livepatch"] }

/-- A sample machine-token response wrapping `sampleCI`. -/
def sampleResp : MachineTokenResponse := { contractInfo := sampleCI }

/-- An attached configuration as attach leaves it: the machine token plus
the bound credential that attach wrote under `bound-macaroon`. -/
def cfgAttached : Config :=
  { cache := [("machine-token", CacheVal.mtok sampleResp),
              ("bound-macaroon", CacheVal.str "tok123")],
    accounts := [{ name := "acct" }] }

/-- An unattached configuration with an empty cache. -/
def cfgEmpty : Config := { cache := [], accounts := [] }

/-- An entitlement oracle on which every capability check answers yes. -/
def esAll : EntOracle :=
  { canDisable := fun _ => true, disableOk := fun _ => true,
    enableOk := fun _ => true,
    statusLine := fun n => n ++ ": enabled",
    motdSummary := fun _ => "motd" }

/-- A world on which every remote call succeeds. -/
def WAllOk : World :=
  { rootMacaroon := Except.ok "rootmac",
    caveatId := fun _ => "cav-7",
    ssoDischarge := fun _ => Except.ok "dismac",
    bindResult := fun d r => d ++ ":" ++ r,
    accountsResp := fun _ => Except.ok (),
    accountContracts := fun _ => Except.ok [{ contractInfo := sampleCI }],
    addContractToken := fun _ _ => Except.ok "ctok",
    machineAttach := fun _ => Except.ok sampleResp,
    resourceAccess := fun _ _ => Except.ok () }

/-- A world on which exactly the `esm` resource-access grant fails. -/
def WGrantFail : World :=
  { WAllOk with
    resourceAccess := fun _ n =>
      if n = "esm" then Except.error (AttachErr.url "contracts.example") else Except.ok () }

/-- A world on which the accounts request fails with a URL error. -/
def WAccountsFail : World :=
  { WAllOk with
    accountsResp := fun _ => Except.error (AttachErr.url "contracts.example") }

/-- C1: on an attached root invocation, detach runs every registry
entitlement's silent can-disable check (and silent disable when it
answers yes) strictly before the cache deletions, and afterwards
`machine-token` is gone — but the `bound-macaroon` key that attach wrote
is not among the deleted keys (the code deletes `oauth` instead), so the
bound credential survives detach, contradicting the claim that the
credential store retains neither key. -/
theorem detach_order_and_bound_macaroon_survival :
    action_detach 0 cfgAttached esAll =
      (ExitR.code 0,
       [Ev.entCanDisable "esm", Ev.entDisable "esm",
        Ev.entCanDisable "fips", Ev.entDisable "fips",
        Ev.entCanDisable "fips-updates", Ev.entDisable "fips-updates",
        Ev.entCanDisable "livepatch", Ev.entDisable "livepatch",
        Ev.deleteCache "machine-token", Ev.deleteCache "oauth",
        Ev.print "This machine is now detached"],
       [("bound-macaroon", CacheVal.str "tok123")]) ∧
    Cache.find (action_detach 0 cfgAttached esAll).2.2 "machine-token" = none ∧
    Cache.find (action_detach 0 cfgAttached esAll).2.2 "bound-macaroon" =
      some (CacheVal.str "tok123") := by
  decide

/-- C4: attach on an already-attached machine (with a cached account, as
attach leaves it) prints the already-attached message only, issues zero
network calls, leaves the cache untouched and returns exit code 0. -/
theorem attach_already_attached_noop (tok : Option String) (uid : Nat)
    (cfg : Config) (w : World) (es : EntOracle) (a : Account)
    (rest : List Account) (hatt : cfg.is_attached = true)
    (hacc : cfg.accounts = a :: rest) :
    action_attach tok uid cfg w es =
      (ExitR.code 0,
       [Ev.print ("This machine is already attached to \x27" ++ a.name ++ "\x27.")],
       cfg.cache) ∧
    netCallsOf (action_attach tok uid cfg w es).2.1 = [] := by
  constructor
  · simp [action_attach, hatt, hacc]
  · simp [action_attach, hatt, hacc, netCallsOf]

/-- Witness for C4 at a concrete attached configuration. -/
theorem attach_already_attached_noop_witness :
    action_attach none 5 cfgAttached WAllOk esAll =
      (ExitR.code 0,
       [Ev.print ("This machine is already attached to \x27acct\x27.")],
       cfgAttached.cache) ∧
    netCallsOf (action_attach none 5 cfgAttached WAllOk esAll).2.1 = [] :=
  attach_already_attached_noop none 5 cfgAttached WAllOk esAll
    { name := "acct" } [] (by decide) (by decide)

/-- C7: status without the motd flag on an unattached machine prints
exactly the fixed unattached message (so no cache or file writes occur)
and the action returns normally, so the process exits 0. -/
theorem status_unattached_success (cfg : Config) (es : EntOracle)
    (hatt : cfg.is_attached = false) :
    action_status false cfg es = (ExitR.code 0, [Ev.print MESSAGE_UNATTACHED]) := by
  simp [action_status, hatt]

/-- Witness for C7 at the empty configuration. -/
theorem status_unattached_success_witness :
    action_status false cfgEmpty esAll = (ExitR.code 0, [Ev.print MESSAGE_UNATTACHED]) :=
  status_unattached_success cfgEmpty esAll (by decide)

/-- C8: detach on an unattached machine prints the guidance message and
returns 1 whatever the caller's uid (the not-attached check precedes the
privilege check), with no entitlement calls and no cache deletion; detach
attached but non-root prints the fixed non-root message and returns 1,
again deleting nothing. -/
theorem detach_preconditions (cfg : Config) (es : EntOracle) (uid : Nat) :
    (cfg.is_attached = false →
      action_detach uid cfg es =
        (ExitR.code 1, [Ev.print MESSAGE_DETACH_UNATTACHED], cfg.cache)) ∧
    (cfg.is_attached = true → uid ≠ 0 →
      action_detach uid cfg es =
        (ExitR.code 1, [Ev.print MESSAGE_NONROOT_USER], cfg.cache)) := by
  constructor
  · intro h
    simp [action_detach, h]
  · intro h hu
    simp [action_detach, h, hu]

/-- Witness for C8: both precondition outcomes at concrete inputs. -/
theorem detach_preconditions_witness :
    action_detach 0 cfgEmpty esAll =
      (ExitR.code 1, [Ev.print MESSAGE_DETACH_UNATTACHED], cfgEmpty.cache) ∧
    action_detach 7 cfgAttached esAll =
      (ExitR.code 1, [Ev.print MESSAGE_NONROOT_USER], cfgAttached.cache) :=
  ⟨(detach_preconditions cfgEmpty esAll 0).1 (by decide),
   (detach_preconditions cfgAttached esAll 7).2 (by decide) (by decide)⟩

end UA

namespace UA

/-- C3 counterexample: a non-root attach on an already-attached machine
returns exit code 0 (the already-attached short-circuit precedes the
privilege check) and never prints the non-root message, refuting the
claim that every non-root attach invocation exits 1 with that message. -/
theorem attach_nonroot_already_attached_cex :
    (action_attach none 1000 cfgAttached WAllOk esAll).1 = ExitR.code 0 ∧
    Ev.print MESSAGE_NONROOT_USER ∉ (action_attach none 1000 cfgAttached WAllOk esAll).2.1 := by
  decide

/-- C3 amended: a non-root attach on a machine that is not already
attached, a non-root detach on an attached machine, and any non-root
enable or disable print exactly the fixed non-root message, perform no
network calls and no cache mutation, and return exit code 1; attach on
an already-attached machine instead short-circuits to exit code 0
before the privilege check. -/
theorem nonroot_invocations_gated (cfg : Config) (w : World)
    (es : EntOracle) (tok : Option String) (name : String) (uid : Nat)
    (hu : uid ≠ 0) :
    (cfg.is_attached = false →
      action_attach tok uid cfg w es =
        (ExitR.code 1, [Ev.print MESSAGE_NONROOT_USER], cfg.cache)) ∧
    (cfg.is_attached = true →
      action_detach uid cfg es =
        (ExitR.code 1, [Ev.print MESSAGE_NONROOT_USER], cfg.cache)) ∧
    action_enable name uid cfg es =
      (ExitR.code 1, [Ev.print MESSAGE_NONROOT_USER], cfg.cache) ∧
    action_disable name uid cfg es =
      (ExitR.code 1, [Ev.print MESSAGE_NONROOT_USER], cfg.cache) := by
  refine ⟨?_, ?_, ?_, ?_⟩
  · intro h
    simp [action_attach, h, hu]
  · intro h
    simp [action_detach, h, hu]
  · simp [action_enable, entitlementEnable, hu]
  · simp [action_disable, entitlementDisable, hu]

/-- Witness for the amended C3 at uid 3. -/
theorem nonroot_invocations_gated_witness :
    action_attach none 3 cfgEmpty WAllOk esAll =
      (ExitR.code 1, [Ev.print MESSAGE_NONROOT_USER], cfgEmpty.cache) ∧
    action_detach 3 cfgAttached esAll =
      (ExitR.code 1, [Ev.print MESSAGE_NONROOT_USER], cfgAttached.cache) ∧
    action_enable "esm" 3 cfgEmpty esAll =
      (ExitR.code 1, [Ev.print MESSAGE_NONROOT_USER], cfgEmpty.cache) ∧
    action_disable "esm" 3 cfgEmpty esAll =
      (ExitR.code 1, [Ev.print MESSAGE_NONROOT_USER], cfgEmpty.cache) :=
  ⟨(nonroot_invocations_gated cfgEmpty WAllOk esAll none "esm" 3 (by decide)).1 (by decide),
   (nonroot_invocations_gated cfgAttached WAllOk esAll none "esm" 3 (by decide)).2.1 (by decide),
   (nonroot_invocations_gated cfgEmpty WAllOk esAll none "esm" 3 (by decide)).2.2.1,
   (nonroot_invocations_gated cfgEmpty WAllOk esAll none "esm" 3 (by decide)).2.2.2⟩

/-- C9: on an attached machine whose machine token carries
`effectiveTo = "2030-01-15T00:00:00.000000Z"`, status parses the fixed
UTC format and the header it prints carries `2030-01-15` in the
valid-until slot. -/
theorem status_prints_contract_expiry_date (cfg : Config) (es : EntOracle)
    (mt : MachineTokenResponse) (a : Account) (rest : List Account)
    (hmt : cfg.machine_token = some mt)
    (heff : mt.contractInfo.effectiveTo = "2030-01-15T00:00:00.000000Z")
    (hacc : cfg.accounts = a :: rest) :
    statusContent cfg es =
      some (statusHeader a.name mt.contractInfo.name "2030-01-15" statusSupportLevel ::
            (List.map es.statusLine ENTITLEMENT_CLASSES ++
             ["\nEnable entitlements with \x60ua enable <service>\x60\n"])) ∧
    action_status false cfg es =
      (ExitR.code 0,
       [Ev.print (String.intercalate "\n"
         (statusHeader a.name mt.contractInfo.name "2030-01-15" statusSupportLevel ::
          (List.map es.statusLine ENTITLEMENT_CLASSES ++
           ["\nEnable entitlements with \x60ua enable <service>\x60\n"])))]) := by
  have hparse : strptimeExpiryDate "2030-01-15T00:00:00.000000Z" =
      some { y := 2030, m := 1, d := 15 } := by decide
  have hfmt : PyDate.fmt { y := 2030, m := 1, d := 15 } = "2030-01-15" := by decide
  have hattached : cfg.is_attached = true := by
    unfold Config.machine_token at hmt
    unfold Config.is_attached
    cases hf : Cache.find cfg.cache "machine-token" with
    | none => rw [hf] at hmt; simp at hmt
    | some v => simp [hf]
  have hcontent : statusContent cfg es =
      some (statusHeader a.name mt.contractInfo.name "2030-01-15" statusSupportLevel ::
            (List.map es.statusLine ENTITLEMENT_CLASSES ++
             ["\nEnable entitlements with \x60ua enable <service>\x60\n"])) := by
    simp [statusContent, hmt, heff, hparse, hacc, hfmt]
  exact ⟨hcontent, by simp [action_status, hattached, hcontent]⟩

/-- Witness for C9 at a concrete attached configuration. -/
theorem status_prints_contract_expiry_date_witness :
    statusContent cfgAttached esAll =
      some (statusHeader "acct" "contractA" "2030-01-15" statusSupportLevel ::
            (List.map esAll.statusLine ENTITLEMENT_CLASSES ++
             ["\nEnable entitlements with \x60ua enable <service>\x60\n"])) ∧
    action_status false cfgAttached esAll =
      (ExitR.code 0,
       [Ev.print (String.intercalate "\n"
         (statusHeader "acct" "contractA" "2030-01-15" statusSupportLevel ::
          (List.map esAll.statusLine ENTITLEMENT_CLASSES ++
           ["\nEnable entitlements with \x60ua enable <service>\x60\n"])))]) :=
  status_prints_contract_expiry_date cfgAttached esAll sampleResp
    { name := "acct" } [] (by decide) (by decide) (by decide)

end UA

namespace UA

/-- C2 counterexample: with two resource entitlements and exactly one
failing grant request (for `esm`), the other request (for `livepatch`)
is never issued — the loop stops at the failure — and attach does not
return exit code 0; this refutes the claim that the remaining N-1
requests are still issued and attach still reports overall success. -/
theorem attach_partial_grant_cex :
    resourceCallsOf (action_attach (some "tok123") 0 cfgEmpty WGrantFail esAll).2.1 =
      ["esm"] ∧
    (action_attach (some "tok123") 0 cfgEmpty WGrantFail esAll).1 ≠ ExitR.code 0 := by
  decide

/-- C2 amended: when a resource-access grant request fails during attach,
the requests after it in mapping order are not issued and attach
terminates with an unhandled error instead of exit code 0 (the grant
loop has no exception handler); the machine token written before the
loop does remain persisted. -/
theorem attach_grant_failure_aborts (cfg : Config) (w : World)
    (es : EntOracle) (t ct : String) (c : ContractEntry)
    (cs : List ContractEntry) (resp : MachineTokenResponse)
    (pre post : List String) (bad : String) (e : AttachErr)
    (hatt : cfg.is_attached = false) (ht : t ≠ "")
    (hacc : w.accountsResp t = Except.ok ())
    (hctr : w.accountContracts t = Except.ok (c :: cs))
    (hact : w.addContractToken t c.contractInfo.id = Except.ok ct)
    (hmch : w.machineAttach ct = Except.ok resp)
    (hents : resp.contractInfo.resourceEntitlements = pre ++ bad :: post)
    (hok : ∀ n ∈ pre, w.resourceAccess (some resp) n = Except.ok ())
    (hbad : w.resourceAccess (some resp) bad = Except.error e) :
    (action_attach (some t) 0 cfg w es).1 = ExitR.crash ∧
    resourceCallsOf (action_attach (some t) 0 cfg w es).2.1 = pre ++ [bad] ∧
    Cache.find (action_attach (some t) 0 cfg w es).2.2 "machine-token" =
      some (CacheVal.mtok resp) := by
  have h1 : acquireSso (some t) w = (SsoR.ok t, []) := by
    simp [acquireSso, tokenFalsy, ht]
  have h2 : contractPhase w t =
      (CtrR.ok resp,
       [Ev.net (NetCall.requestAccounts t),
        Ev.net (NetCall.requestAccountContracts t),
        Ev.net (NetCall.requestAddContractToken t c.contractInfo.id),
        Ev.net (NetCall.requestContractMachineAttach ct)]) := by
    simp [contractPhase, hacc, hctr, hact, hmch]
  have hmt2 : Config.machine_token
      { cache := write_cache (write_cache cfg.cache "bound-macaroon" (CacheVal.str t))
          "machine-token" (CacheVal.mtok resp),
        accounts := cfg.accounts } = some resp := by
    unfold Config.machine_token
    rw [find_write_self]
  have h3 : grantLoop w (some resp) resp.contractInfo.resourceEntitlements =
      (none,
       List.map (fun n => Ev.net (NetCall.requestResourceMachineAccess n))
         (pre ++ [bad])) := by
    rw [hents]
    exact grantLoop_fails w (some resp) pre post bad e hok hbad
  refine ⟨?_, ?_, ?_⟩
  · simp [action_attach, hatt, h1, ht, h2, hmt2, h3]
  · simp [action_attach, hatt, h1, ht, h2, hmt2, h3, resourceCallsOf_append,
          resourceCallsOf, resourceCallsOf_grantMap]
  · simp [action_attach, hatt, h1, ht, h2, hmt2, h3, find_write_self]

/-- Witness for the amended C2 at the concrete grant-failure world. -/
theorem attach_grant_failure_aborts_witness :
    (action_attach (some "tok123") 0 cfgEmpty WGrantFail esAll).1 = ExitR.crash ∧
    resourceCallsOf (action_attach (some "tok123") 0 cfgEmpty WGrantFail esAll).2.1 =
      ["esm"] ∧
    Cache.find (action_attach (some "tok123") 0 cfgEmpty WGrantFail esAll).2.2
      "machine-token" = some (CacheVal.mtok sampleResp) :=
  attach_grant_failure_aborts cfgEmpty WGrantFail esAll "tok123" "ctok"
    { contractInfo := sampleCI } [] sampleResp [] ["livepatch"] "esm"
    (AttachErr.url "contracts.example") (by decide) (by decide) rfl
    rfl rfl rfl (by decide)
    (fun n hn => absurd hn (by simp)) rfl

end UA

namespace UA

theorem acquireSso_no_contract (tok : Option String) (w : World) :
    ((acquireSso tok w).2).all (fun e => ! (isContractNet e)) = true := by
  unfold acquireSso
  repeat' split
  all_goals rfl

/-- C5 counterexample: attach with token `tok123` in a world where the
accounts request fails writes the bound credential under the key
`bound-macaroon`, not under `bound-token` as the claim states — after
the failure the store holds `bound-macaroon` and no `bound-token`. -/
theorem attach_bound_key_name_cex :
    Cache.find (action_attach (some "tok123") 0 cfgEmpty WAccountsFail esAll).2.2
      "bound-token" = none ∧
    Cache.find (action_attach (some "tok123") 0 cfgEmpty WAccountsFail esAll).2.2
      "bound-macaroon" = some (CacheVal.str "tok123") ∧
    Cache.find (action_attach (some "tok123") 0 cfgEmpty WAccountsFail esAll).2.2
      "machine-token" = none ∧
    (action_attach (some "tok123") 0 cfgEmpty WAccountsFail esAll).1 = ExitR.code 1 := by
  decide

/-- C5 amended: during attach the bound credential is written to the
credential store under key `bound-macaroon` immediately after it is
obtained and before any contract-service call; if the post-bind phase
fails before the machine token is issued, the store holds the bound
credential under `bound-macaroon` and `machine-token` is absent. -/
theorem attach_persists_bound_macaroon_first (cfg : Config) (w : World)
    (es : EntOracle) (tok : Option String) (sso : String) (r : ExitR)
    (hatt : cfg.is_attached = false)
    (hsso : (acquireSso tok w).1 = SsoR.ok sso)
    (hne : sso ≠ "")
    (habort : (contractPhase w sso).1 = CtrR.abort r) :
    (action_attach tok 0 cfg w es).1 = r ∧
    Cache.find (action_attach tok 0 cfg w es).2.2 "bound-macaroon" =
      some (CacheVal.str sso) ∧
    Cache.find (action_attach tok 0 cfg w es).2.2 "machine-token" = none ∧
    ∃ pre post,
      (action_attach tok 0 cfg w es).2.1 =
        pre ++ Ev.writeCache "bound-macaroon" (CacheVal.str sso) :: post ∧
      pre.all (fun e => ! (isContractNet e)) = true := by
  rcases hsq : acquireSso tok w with ⟨s1, t1⟩
  rw [hsq] at hsso
  simp only at hsso
  subst hsso
  rcases hcp : contractPhase w sso with ⟨cr, tc⟩
  rw [hcp] at habort
  simp only at habort
  subst habort
  have hmain : action_attach tok 0 cfg w es =
      (r, (t1 ++ [Ev.writeCache "bound-macaroon" (CacheVal.str sso)]) ++ tc,
       write_cache cfg.cache "bound-macaroon" (CacheVal.str sso)) := by
    simp [action_attach, hatt, hsq, hne, hcp]
  have hall : t1.all (fun e => ! (isContractNet e)) = true := by
    have hx := acquireSso_no_contract tok w
    rw [hsq] at hx
    exact hx
  refine ⟨?_, ?_, ?_, t1, tc, ?_, hall⟩
  · rw [hmain]
  · rw [hmain]
    exact find_write_self cfg.cache "bound-macaroon" (CacheVal.str sso)
  · rw [hmain]
    have hne2 : "machine-token" ≠ "bound-macaroon" := by decide
    have hstep := find_write_ne cfg.cache "bound-macaroon" "machine-token"
      (CacheVal.str sso) hne2
    rw [show (r, (t1 ++ [Ev.writeCache "bound-macaroon" (CacheVal.str sso)]) ++ tc,
          write_cache cfg.cache "bound-macaroon" (CacheVal.str sso)).2.2 =
        write_cache cfg.cache "bound-macaroon" (CacheVal.str sso) from rfl]
    rw [hstep]
    exact is_attached_find_none cfg hatt
  · rw [hmain]
    simp

/-- Witness for the amended C5 at the accounts-failure world. -/
theorem attach_persists_bound_macaroon_first_witness :
    (action_attach (some "tok123") 0 cfgEmpty WAccountsFail esAll).1 = ExitR.code 1 ∧
    Cache.find (action_attach (some "tok123") 0 cfgEmpty WAccountsFail esAll).2.2
      "bound-macaroon" = some (CacheVal.str "tok123") ∧
    Cache.find (action_attach (some "tok123") 0 cfgEmpty WAccountsFail esAll).2.2
      "machine-token" = none ∧
    ∃ pre post,
      (action_attach (some "tok123") 0 cfgEmpty WAccountsFail esAll).2.1 =
        pre ++ Ev.writeCache "bound-macaroon" (CacheVal.str "tok123") :: post ∧
      pre.all (fun e => ! (isContractNet e)) = true :=
  attach_persists_bound_macaroon_first cfgEmpty WAccountsFail esAll
    (some "tok123") "tok123" (ExitR.code 1) (by decide) (by decide)
    (by decide) (by decide)

end UA

namespace UA

theorem attach_token_netcalls (cfg : Config) (w : World) (es : EntOracle)
    (t : String) (hatt : cfg.is_attached = false) (ht : t ≠ "") :
    ∃ rest,
      netCallsOf (action_attach (some t) 0 cfg w es).2.1 =
        netCallsOf (contractPhase w t).2 ++ rest ∧
      ∀ cl ∈ rest, ∃ n, cl = NetCall.requestResourceMachineAccess n := by
  have h1 : acquireSso (some t) w = (SsoR.ok t, []) := by
    simp [acquireSso, tokenFalsy, ht]
  rcases hcp : contractPhase w t with ⟨cr, tc⟩
  cases cr with
  | abort r =>
    refine ⟨[], ?_, by intro cl h; simp at h⟩
    simp [action_attach, hatt, h1, ht, hcp, netCallsOf_append, netCallsOf]
  | ok resp =>
    have hmt2 : Config.machine_token
        { cache := write_cache (write_cache cfg.cache "bound-macaroon" (CacheVal.str t))
            "machine-token" (CacheVal.mtok resp),
          accounts := cfg.accounts } = some resp := by
      unfold Config.machine_token
      rw [find_write_self]
    rcases hg : grantLoop w (some resp) resp.contractInfo.resourceEntitlements with ⟨gr, tg⟩
    have htg : ∀ cl ∈ netCallsOf tg, ∃ n, cl = NetCall.requestResourceMachineAccess n := by
      intro cl hcl
      have hx := grantCalls_are_resource w (some resp) resp.contractInfo.resourceEntitlements cl
      rw [hg] at hx
      exact hx hcl
    cases gr with
    | none =>
      refine ⟨netCallsOf tg, ?_, htg⟩
      simp [action_attach, hatt, h1, ht, hcp, hmt2, hg, netCallsOf_append, netCallsOf]
    | some u =>
      rcases hst : action_status false
          { cache := write_cache (write_cache cfg.cache "bound-macaroon" (CacheVal.str t))
              "machine-token" (CacheVal.mtok resp),
            accounts := cfg.accounts } es with ⟨st, ts⟩
      have hts : netCallsOf ts = [] := by
        have hx := status_no_net false
          { cache := write_cache (write_cache cfg.cache "bound-macaroon" (CacheVal.str t))
              "machine-token" (CacheVal.mtok resp),
            accounts := cfg.accounts } es
        rw [hst] at hx
        exact hx
      refine ⟨netCallsOf tg, ?_, htg⟩
      cases st with
      | code n =>
        simp [action_attach, hatt, h1, ht, hcp, hmt2, hg, hst,
              netCallsOf_append, netCallsOf, hts]
      | crash =>
        simp [action_attach, hatt, h1, ht, hcp, hmt2, hg, hst,
              netCallsOf_append, netCallsOf, hts]

/-- C6: attach with an explicit non-empty token issues no identity-
exchange calls (no root-macaroon request, no interactive SSO login); its
network calls are exactly the accounts, account-contracts and
contract-token requests carrying the supplied token as bound credential,
then the machine-token request carrying the minted contract token,
followed only by per-entitlement resource-access grants. -/
theorem attach_with_token_skips_identity (cfg : Config) (w : World)
    (es : EntOracle) (t ct : String) (c : ContractEntry)
    (cs : List ContractEntry)
    (hatt : cfg.is_attached = false) (ht : t ≠ "")
    (hacc : w.accountsResp t = Except.ok ())
    (hctr : w.accountContracts t = Except.ok (c :: cs))
    (hact : w.addContractToken t c.contractInfo.id = Except.ok ct) :
    (∀ cl ∈ netCallsOf (action_attach (some t) 0 cfg w es).2.1,
       isIdentityCall cl = false) ∧
    ∃ rest,
      netCallsOf (action_attach (some t) 0 cfg w es).2.1 =
        NetCall.requestAccounts t :: NetCall.requestAccountContracts t ::
        NetCall.requestAddContractToken t c.contractInfo.id ::
        NetCall.requestContractMachineAttach ct :: rest ∧
      ∀ cl ∈ rest, ∃ n, cl = NetCall.requestResourceMachineAccess n := by
  obtain ⟨rest, hmain, hrest⟩ := attach_token_netcalls cfg w es t hatt ht
  have hcn : netCallsOf (contractPhase w t).2 =
      [NetCall.requestAccounts t, NetCall.requestAccountContracts t,
       NetCall.requestAddContractToken t c.contractInfo.id,
       NetCall.requestContractMachineAttach ct] := by
    cases hm : w.machineAttach ct with
    | error e => simp [contractPhase, hacc, hctr, hact, hm, netCallsOf]
    | ok resp => simp [contractPhase, hacc, hctr, hact, hm, netCallsOf]
  constructor
  · intro cl hcl
    rw [hmain, hcn] at hcl
    simp at hcl
    rcases hcl with h | h | h | h | h
    · rw [h]; rfl
    · rw [h]; rfl
    · rw [h]; rfl
    · rw [h]; rfl
    · obtain ⟨n, hn⟩ := hrest cl h
      rw [hn]; rfl
  · exact ⟨rest, by rw [hmain, hcn]; rfl, hrest⟩

/-- Witness for C6 with token `tok123` and the all-success world. -/
theorem attach_with_token_skips_identity_witness :
    (∀ cl ∈ netCallsOf (action_attach (some "tok123") 0 cfgEmpty WAllOk esAll).2.1,
       isIdentityCall cl = false) ∧
    ∃ rest,
      netCallsOf (action_attach (some "tok123") 0 cfgEmpty WAllOk esAll).2.1 =
        NetCall.requestAccounts "tok123" :: NetCall.requestAccountContracts "tok123" ::
        NetCall.requestAddContractToken "tok123" "cid-1" ::
        NetCall.requestContractMachineAttach "ctok" :: rest ∧
      ∀ cl ∈ rest, ∃ n, cl = NetCall.requestResourceMachineAccess n :=
  attach_with_token_skips_identity cfgEmpty WAllOk esAll "tok123" "ctok"
    { contractInfo := sampleCI } [] (by decide) (by decide) rfl rfl rfl

end UA

namespace UA

/-- A world that binds the discharge to an empty bound token. -/
def WEmptyBind : World := { WAllOk with bindResult := fun _ _ => "" }

/-- C10: attach takes the pre-authenticated path iff the supplied token
is a non-empty string — a non-empty token yields no identity-exchange
calls at all, while an absent or empty-string token is falsy and the
run (when it proceeds past the guards) starts with the root-macaroon
request of the full identity exchange; and when the interactive
exchange binds to an empty (falsy) credential, attach prints the
failure message and returns exit code 1 with no cache write. -/
theorem attach_token_truthiness (cfg : Config) (w : World) (es : EntOracle)
    (tok : Option String) :
    ((∃ t, tok = some t ∧ t ≠ "") →
      (netCallsOf (action_attach tok 0 cfg w es).2.1).all
        (fun c => ! (isIdentityCall c)) = true) ∧
    (tokenFalsy tok = true → cfg.is_attached = false →
      List.head? (action_attach tok 0 cfg w es).2.1 =
        some (Ev.net NetCall.requestRootMacaroon)) ∧
    (∀ root d, tokenFalsy tok = true → cfg.is_attached = false →
      w.rootMacaroon = Except.ok root →
      w.ssoDischarge (w.caveatId root) = Except.ok d →
      w.bindResult d root = "" →
      action_attach tok 0 cfg w es =
        (ExitR.code 1,
         [Ev.net NetCall.requestRootMacaroon,
          Ev.net (NetCall.ssoLoginPrompt (w.caveatId root)),
          Ev.print MESSAGE_ATTACH_NO_TOKEN], cfg.cache)) := by
  refine ⟨?_, ?_, ?_⟩
  · rintro ⟨t, rfl, ht⟩
    cases hatt : cfg.is_attached with
    | true =>
      cases hh : cfg.accounts.head? with
      | none => simp [action_attach, hatt, hh, netCallsOf]
      | some a => simp [action_attach, hatt, hh, netCallsOf]
    | false =>
      obtain ⟨rest, hmain, hrest⟩ := attach_token_netcalls cfg w es t hatt ht
      rw [hmain, List.all_append, Bool.and_eq_true]
      refine ⟨contract_no_identity w t, ?_⟩
      rw [List.all_eq_true]
      intro cl hcl
      obtain ⟨n, hn⟩ := hrest cl hcl
      simp [hn, isIdentityCall]
  · intro htf hatt
    rcases hr : w.rootMacaroon with e | root
    · cases e with
      | url u =>
        have h1 : acquireSso tok w =
            (SsoR.abort (ExitR.code 1),
             [Ev.net NetCall.requestRootMacaroon,
              Ev.logError ("Could not reach url \x27" ++ u ++ "\x27 to authenticate.")]) := by
          simp [acquireSso, htf, hr]
        simp [action_attach, hatt, h1]
      | ssoAuth m =>
        have h1 : acquireSso tok w =
            (SsoR.abort ExitR.crash, [Ev.net NetCall.requestRootMacaroon]) := by
          simp [acquireSso, htf, hr]
        simp [action_attach, hatt, h1]
    · rcases hd : w.ssoDischarge (w.caveatId root) with e | d
      · cases e with
        | url u =>
          have h1 : acquireSso tok w =
              (SsoR.abort (ExitR.code 1),
               [Ev.net NetCall.requestRootMacaroon,
                Ev.net (NetCall.ssoLoginPrompt (w.caveatId root)),
                Ev.logError ("Could not reach url \x27" ++ u ++ "\x27 to authenticate.")]) := by
            simp [acquireSso, htf, hr, hd]
          simp [action_attach, hatt, h1]
        | ssoAuth m =>
          have h1 : acquireSso tok w =
              (SsoR.abort ExitR.crash,
               [Ev.net NetCall.requestRootMacaroon,
                Ev.net (NetCall.ssoLoginPrompt (w.caveatId root))]) := by
            simp [acquireSso, htf, hr, hd]
          simp [action_attach, hatt, h1]
      · have h1 : acquireSso tok w =
            (SsoR.ok (w.bindResult d root),
             [Ev.net NetCall.requestRootMacaroon,
              Ev.net (NetCall.ssoLoginPrompt (w.caveatId root))]) := by
          simp [acquireSso, htf, hr, hd]
        by_cases hbe : w.bindResult d root = ""
        · simp [action_attach, hatt, h1, hbe]
        · rcases hcp : contractPhase w (w.bindResult d root) with ⟨cr, tc⟩
          cases cr with
          | abort r => simp [action_attach, hatt, h1, hbe, hcp]
          | ok resp =>
            have hmt2 : Config.machine_token
                { cache := write_cache (write_cache cfg.cache "bound-macaroon"
                    (CacheVal.str (w.bindResult d root)))
                    "machine-token" (CacheVal.mtok resp),
                  accounts := cfg.accounts } = some resp := by
              unfold Config.machine_token
              rw [find_write_self]
            rcases hg : grantLoop w (some resp)
                resp.contractInfo.resourceEntitlements with ⟨gr, tg⟩
            cases gr with
            | none => simp [action_attach, hatt, h1, hbe, hcp, hmt2, hg]
            | some u =>
              rcases hst : action_status false
                  { cache := write_cache (write_cache cfg.cache "bound-macaroon"
                      (CacheVal.str (w.bindResult d root)))
                      "machine-token" (CacheVal.mtok resp),
                    accounts := cfg.accounts } es with ⟨st, ts⟩
              cases st with
              | code n => simp [action_attach, hatt, h1, hbe, hcp, hmt2, hg, hst]
              | crash => simp [action_attach, hatt, h1, hbe, hcp, hmt2, hg, hst]
  · intro root d htf hatt hr hd hbind
    have h1 : acquireSso tok w =
        (SsoR.ok (w.bindResult d root),
         [Ev.net NetCall.requestRootMacaroon,
          Ev.net (NetCall.ssoLoginPrompt (w.caveatId root))]) := by
      simp [acquireSso, htf, hr, hd]
    simp [action_attach, hatt, h1, hbind]

/-- Witness for C10: all three parts at concrete inputs. -/
theorem attach_token_truthiness_witness :
    (netCallsOf (action_attach (some "tok123") 0 cfgEmpty WAllOk esAll).2.1).all
      (fun c => ! (isIdentityCall c)) = true ∧
    List.head? (action_attach none 0 cfgEmpty WAllOk esAll).2.1 =
      some (Ev.net NetCall.requestRootMacaroon) ∧
    action_attach none 0 cfgEmpty WEmptyBind esAll =
      (ExitR.code 1,
       [Ev.net NetCall.requestRootMacaroon,
        Ev.net (NetCall.ssoLoginPrompt "cav-7"),
        Ev.print MESSAGE_ATTACH_NO_TOKEN], cfgEmpty.cache) :=
  ⟨(attach_token_truthiness cfgEmpty WAllOk esAll (some "tok123")).1
     ⟨"tok123", rfl, by decide⟩,
   (attach_token_truthiness cfgEmpty WAllOk esAll none).2.1 rfl (by decide),
   (attach_token_truthiness cfgEmpty WEmptyBind esAll none).2.2 "rootmac" "dismac"
     rfl (by decide) rfl rfl rfl⟩

end UA
